import Mathlib

/-!
# Verification model of the `bytes_parser` crate

Shallow embedding of `src/endianness.rs`, `src/errors.rs` and `src/parser.rs`.

Machine-integer conventions: the Rust code runs on a 64-bit platform, so
`usize`/`isize` are 64-bit.  Unsigned values are modelled as `Nat` and signed
values as `Int`, with explicit reduction modulo `2 ^ 64` where the source
performs fixed-width arithmetic.  `as` casts between `usize` and `isize`
reinterpret the two's-complement bit pattern (this is defined behaviour in
Rust for every build profile); arithmetic overflow is modelled with the
wrap-around semantics of release builds (`overflow-checks = off`).
-/

set_option autoImplicit false

deriving instance DecidableEq for Except

/-- `2 ^ 64`, one past the largest `usize` value on a 64-bit platform. -/
def usizeLim : Nat := 2 ^ 64

/-- Model of the Rust cast `n as isize` for a `usize` value `n < 2 ^ 64`:
two's-complement reinterpretation of the 64-bit pattern. -/
def toIsize (n : Nat) : Int :=
  if n < 2 ^ 63 then (n : Int) else (n : Int) - (2 ^ 64 : Int)

/-- Normalize an integer into the `isize` range `[-2 ^ 63, 2 ^ 63)`:
wrap-around behaviour of `isize` arithmetic in release builds. -/
def wrapIsize (x : Int) : Int :=
  (x + 2 ^ 63) % 2 ^ 64 - 2 ^ 63

/-- Model of `ParsingEndian` (src/endianness.rs): which endian system to use
when parsing raw bytes. -/
inductive ParsingEndian where
  | BE
  | LE
  deriving DecidableEq, Repr

/-- `Default for ParsingEndian` (src/endianness.rs): the default is `BE`. -/
def ParsingEndian.default : ParsingEndian := ParsingEndian.BE

/-- Model of `BytesParserError` (src/errors.rs).  The `Utf8Error` payload of
`StringParseError` is abstracted away (it carries no information the claims
depend on). -/
inductive BytesParserError where
  | NotEnoughBytesForTypeError (typeName : String)
  | NotEnoughBytesForStringError (size : Nat)
  | NotEnoughBytesForSlice (size : Nat)
  | CursorOutOfBoundError (target : Int) (length : Nat) (cursor : Nat)
  | StringParseError
  | InvalidU32ForCharError
  deriving DecidableEq, Repr

/-- Model of `BytesParser` (src/parser.rs): a byte buffer (each entry a byte
value), the stored length, the cursor, and the configured endianness. -/
structure BytesParser where
  buffer : List Nat
  length : Nat
  cursor : Nat
  endian : ParsingEndian
  deriving DecidableEq, Repr

/-- Model of `From<&[u8]> for BytesParser` (src/parser.rs): wrap a byte slice,
with `length = bytes.len()`, `cursor = 0` and the default endianness. -/
def fromBytes (bytes : List Nat) : BytesParser :=
  { buffer := bytes, length := bytes.length, cursor := 0,
    endian := ParsingEndian.default }

/-- `BytesParser::parseable`: `self.length - self.cursor` in `usize`
arithmetic (wraps in release builds when `cursor > length`). -/
def parseable (p : BytesParser) : Nat :=
  (p.length + usizeLim - p.cursor) % usizeLim

/-- `BytesParser::position`. -/
def position (p : BytesParser) : Nat := p.cursor

/-- `BytesParser::is_empty`. -/
def is_empty (p : BytesParser) : Bool := p.length == 0

/-- `BytesParser::is_at_start`. -/
def is_at_start (p : BytesParser) : Bool := p.cursor == 0

/-- `BytesParser::is_at_end`. -/
def is_at_end (p : BytesParser) : Bool := p.cursor == p.length

/-- Model of `<T>::from_be_bytes`: the first byte is the most significant. -/
def beVal (l : List Nat) : Nat :=
  l.foldl (fun acc b => acc * 256 + b) 0

/-- Model of `<T>::from_le_bytes`: the first byte is the least significant. -/
def leVal (l : List Nat) : Nat :=
  beVal l.reverse

/-- The value reconstructed by the body of `build_parse_type_fn` from the
`size` bytes at the cursor, according to the active endianness. -/
def readScalarValue (size : Nat) (p : BytesParser) : Nat :=
  let slice := (p.buffer.drop p.cursor).take size
  match p.endian with
  | ParsingEndian.BE => beVal slice
  | ParsingEndian.LE => leVal slice

/-- Model of the function generated by the `build_parse_type_fn!` macro
(src/parser.rs), for a type of byte width `size` whose `stringify!`-ed name is
`typeName`.  Returns the decoded value as its unsigned bit pattern, together
with the updated parser state. -/
def parseScalar (typeName : String) (size : Nat) (p : BytesParser) :
    Except BytesParserError Nat × BytesParser :=
  if parseable p < size then
    (Except.error (BytesParserError.NotEnoughBytesForTypeError typeName), p)
  else
    (Except.ok (readScalarValue size p), { p with cursor := p.cursor + size })

def parse_i8 (p : BytesParser) : Except BytesParserError Nat × BytesParser :=
  parseScalar "i8" 1 p

def parse_u8 (p : BytesParser) : Except BytesParserError Nat × BytesParser :=
  parseScalar "u8" 1 p

def parse_i16 (p : BytesParser) : Except BytesParserError Nat × BytesParser :=
  parseScalar "i16" 2 p

def parse_u16 (p : BytesParser) : Except BytesParserError Nat × BytesParser :=
  parseScalar "u16" 2 p

def parse_i32 (p : BytesParser) : Except BytesParserError Nat × BytesParser :=
  parseScalar "i32" 4 p

def parse_u32 (p : BytesParser) : Except BytesParserError Nat × BytesParser :=
  parseScalar "u32" 4 p

def parse_i64 (p : BytesParser) : Except BytesParserError Nat × BytesParser :=
  parseScalar "i64" 8 p

def parse_u64 (p : BytesParser) : Except BytesParserError Nat × BytesParser :=
  parseScalar "u64" 8 p

def parse_i128 (p : BytesParser) : Except BytesParserError Nat × BytesParser :=
  parseScalar "i128" 16 p

def parse_u128 (p : BytesParser) : Except BytesParserError Nat × BytesParser :=
  parseScalar "u128" 16 p

def parse_f32 (p : BytesParser) : Except BytesParserError Nat × BytesParser :=
  parseScalar "f32" 4 p

def parse_f64 (p : BytesParser) : Except BytesParserError Nat × BytesParser :=
  parseScalar "f64" 8 p

/-- Model of `std::str::from_utf8` validity: `utf8Valid l` is `true` exactly
when `l` is a well-formed UTF-8 byte sequence (standard table: no overlongs,
no surrogates, maximum code point `0x10FFFF`). -/
def utf8Valid : List Nat → Bool
  | [] => true
  | b0 :: rest =>
    if b0 < 0x80 then
      utf8Valid rest
    else if b0 < 0xC2 then false
    else if b0 < 0xE0 then
      match rest with
      | b1 :: t1 =>
        decide (0x80 ≤ b1 ∧ b1 < 0xC0) && utf8Valid t1
      | [] => false
    else if b0 < 0xF0 then
      match rest with
      | b1 :: b2 :: t2 =>
        decide ((0x80 ≤ b1 ∧ b1 < 0xC0) ∧ (0x80 ≤ b2 ∧ b2 < 0xC0) ∧
          (b0 = 0xE0 → 0xA0 ≤ b1) ∧ (b0 = 0xED → b1 < 0xA0)) && utf8Valid t2
      | _ => false
    else if b0 < 0xF5 then
      match rest with
      | b1 :: b2 :: b3 :: t3 =>
        decide ((0x80 ≤ b1 ∧ b1 < 0xC0) ∧ (0x80 ≤ b2 ∧ b2 < 0xC0) ∧
          (0x80 ≤ b3 ∧ b3 < 0xC0) ∧
          (b0 = 0xF0 → 0x90 ≤ b1) ∧ (b0 = 0xF4 → b1 < 0x90)) && utf8Valid t3
      | _ => false
    else false

/-- Model of `BytesParser::parse_str_utf8` (src/parser.rs).  A Rust `String`
is its UTF-8 byte content, so the success value is the extracted slice. -/
def parse_str_utf8 (size : Nat) (p : BytesParser) :
    Except BytesParserError (List Nat) × BytesParser :=
  if parseable p < size then
    (Except.error (BytesParserError.NotEnoughBytesForStringError size), p)
  else
    let slice := (p.buffer.drop p.cursor).take size
    if utf8Valid slice then
      (Except.ok slice, { p with cursor := p.cursor + size })
    else
      (Except.error BytesParserError.StringParseError, p)

/-- Model of `char::from_u32`: `some` exactly when the value is a Unicode
scalar value (not a surrogate, at most `0x10FFFF`); a `char` is modelled by
its code point. -/
def char_from_u32 (v : Nat) : Option Nat :=
  if 0x110000 ≤ v ∨ (0xD800 ≤ v ∧ v < 0xE000) then none else some v

/-- Model of `BytesParser::parse_char_u32` (src/parser.rs): a `u32` decode
followed by a `char::from_u32` validity check.  The `?` on `parse_u32`
propagates the error; note that on the `InvalidU32ForCharError` path the state
mutated by `parse_u32` (cursor advanced by 4) is kept. -/
def parse_char_u32 (p : BytesParser) :
    Except BytesParserError Nat × BytesParser :=
  match parse_u32 p with
  | (Except.error e, p1) => (Except.error e, p1)
  | (Except.ok v, p1) =>
    match char_from_u32 v with
    | none => (Except.error BytesParserError.InvalidU32ForCharError, p1)
    | some c => (Except.ok c, p1)

/-- `BytesParser::reset`. -/
def reset (p : BytesParser) : BytesParser := { p with cursor := 0 }

/-- Model of `BytesParser::move_forward` (src/parser.rs):
`new_cursor = self.cursor + amount` in `usize` arithmetic; error with payload
`(new_cursor as isize, length, cursor)` when `new_cursor >= length`. -/
def move_forward (amount : Nat) (p : BytesParser) :
    Except BytesParserError Unit × BytesParser :=
  let new_cursor := (p.cursor + amount) % usizeLim
  if p.length ≤ new_cursor then
    (Except.error
      (BytesParserError.CursorOutOfBoundError (toIsize new_cursor) p.length p.cursor), p)
  else
    (Except.ok (), { p with cursor := new_cursor })

/-- Model of `BytesParser::move_backward` (src/parser.rs):
`new_cursor = (self.cursor as isize) - (amount as isize)` in `isize`
arithmetic; error when `new_cursor < 0`, else the cursor becomes
`new_cursor as usize`. -/
def move_backward (amount : Nat) (p : BytesParser) :
    Except BytesParserError Unit × BytesParser :=
  let new_cursor := wrapIsize (toIsize p.cursor - toIsize amount)
  if new_cursor < 0 then
    (Except.error
      (BytesParserError.CursorOutOfBoundError new_cursor p.length p.cursor), p)
  else
    (Except.ok (), { p with cursor := new_cursor.toNat })

/-- Model of `BytesParser::move_at` (src/parser.rs): error with payload
`(position as isize, length, cursor)` when `position >= length`, else the
cursor becomes `position`. -/
def move_at (pos : Nat) (p : BytesParser) :
    Except BytesParserError Unit × BytesParser :=
  if p.length ≤ pos then
    (Except.error
      (BytesParserError.CursorOutOfBoundError (toIsize pos) p.length p.cursor), p)
  else
    (Except.ok (), { p with cursor := pos })

/-- `BytesParser::set_endian`. -/
def set_endian (e : ParsingEndian) (p : BytesParser) : BytesParser :=
  { p with endian := e }

/-- Big-endian encoding of `v` into `s` bytes, most significant byte first:
model of Rust std `<T>::to_be_bytes` at the bit-pattern level. -/
def natToBE : Nat → Nat → List Nat
  | 0, _ => []
  | s + 1, v => natToBE s (v / 256) ++ [v % 256]

/-- Little-endian encoding of `v` into `s` bytes, least significant byte
first: model of Rust std `<T>::to_le_bytes` at the bit-pattern level. -/
def natToLE : Nat → Nat → List Nat
  | 0, _ => []
  | s + 1, v => v % 256 :: natToLE s (v / 256)

/-- The reachable states of a Reader: any sequence of construction, parsing,
movement, reset and endianness operations, with any arguments a 64-bit Rust
caller can supply. -/
inductive Reachable : BytesParser → Prop where
  | construct (bytes : List Nat) (hb : ∀ b ∈ bytes, b < 256)
      (hl : bytes.length < 2 ^ 63) : Reachable (fromBytes bytes)
  | scalar (typeName : String) (size : Nat) (p : BytesParser)
      (h : Reachable p) (hs : size ∈ ([1, 2, 4, 8, 16] : List Nat)) :
      Reachable (parseScalar typeName size p).2
  | str (size : Nat) (p : BytesParser) (h : Reachable p)
      (hs : size < 2 ^ 64) : Reachable (parse_str_utf8 size p).2
  | chr (p : BytesParser) (h : Reachable p) : Reachable (parse_char_u32 p).2
  | rst (p : BytesParser) (h : Reachable p) : Reachable (reset p)
  | fwd (amount : Nat) (p : BytesParser) (h : Reachable p)
      (ha : amount < 2 ^ 64) : Reachable (move_forward amount p).2
  | bwd (amount : Nat) (p : BytesParser) (h : Reachable p)
      (ha : amount < 2 ^ 64) : Reachable (move_backward amount p).2
  | mvAt (pos : Nat) (p : BytesParser) (h : Reachable p)
      (hp : pos < 2 ^ 64) : Reachable (move_at pos p).2
  | setEnd (e : ParsingEndian) (p : BytesParser) (h : Reachable p) :
      Reachable (set_endian e p)

theorem parseable_eq {p : BytesParser} (hc : p.cursor ≤ p.length)
    (hl : p.length < usizeLim) : parseable p = p.length - p.cursor := by
  unfold parseable
  have h1 : p.length + usizeLim - p.cursor = (p.length - p.cursor) + usizeLim := by
    omega
  rw [h1, Nat.add_mod_right, Nat.mod_eq_of_lt (by omega)]

theorem toIsize_small {n : Nat} (h : n < 2 ^ 63) : toIsize n = (n : Int) := by
  unfold toIsize
  rw [if_pos h]

theorem wrapIsize_eq_self {x : Int} (h0 : -(2 ^ 63) ≤ x) (h1 : x < 2 ^ 63) :
    wrapIsize x = x := by
  unfold wrapIsize
  omega

theorem beVal_foldl (l : List Nat) (acc : Nat) :
    l.foldl (fun a b => a * 256 + b) acc = acc * 256 ^ l.length + beVal l := by
  induction l generalizing acc with
  | nil => simp [beVal]
  | cons x t ih =>
    have hb : beVal (x :: t) = x * 256 ^ t.length + beVal t := by
      have h := ih (0 * 256 + x)
      simpa [beVal] using h
    simp only [List.foldl_cons, List.length_cons, hb]
    rw [ih (acc * 256 + x)]
    ring

theorem beVal_cons (x : Nat) (t : List Nat) :
    beVal (x :: t) = x * 256 ^ t.length + beVal t := by
  have h := beVal_foldl t x
  simpa [beVal] using h

theorem beVal_append_singleton (l : List Nat) (a : Nat) :
    beVal (l ++ [a]) = beVal l * 256 + a := by
  simp [beVal, List.foldl_append]

theorem leVal_cons (x : Nat) (t : List Nat) :
    leVal (x :: t) = x + 256 * leVal t := by
  unfold leVal
  rw [List.reverse_cons, beVal_append_singleton]
  ring

theorem beVal_eq_sum (l : List Nat) :
    beVal l = Finset.sum (Finset.range l.length)
      (fun i => l.getD i 0 * 256 ^ (l.length - 1 - i)) := by
  induction l with
  | nil => simp [beVal]
  | cons x t ih =>
    rw [beVal_cons, ih]
    simp only [List.length_cons]
    rw [Finset.sum_range_succ']
    simp only [List.getD_cons_succ, List.getD_cons_zero, Nat.add_sub_cancel,
      Nat.sub_zero]
    rw [add_comm]
    congr 1
    apply Finset.sum_congr rfl
    intro i _
    have he : t.length - (i + 1) = t.length - 1 - i := by omega
    rw [he]

theorem leVal_eq_sum (l : List Nat) :
    leVal l = Finset.sum (Finset.range l.length) (fun i => l.getD i 0 * 256 ^ i) := by
  induction l with
  | nil => simp [leVal, beVal]
  | cons x t ih =>
    rw [leVal_cons, ih]
    simp only [List.length_cons]
    rw [Finset.sum_range_succ']
    simp only [List.getD_cons_succ, List.getD_cons_zero, pow_zero, mul_one]
    rw [Finset.mul_sum, add_comm]
    congr 1
    apply Finset.sum_congr rfl
    intro i _
    ring

theorem natToBE_length (s : Nat) : ∀ v : Nat, (natToBE s v).length = s := by
  induction s with
  | zero => intro v; rfl
  | succ n ih => intro v; simp [natToBE, ih]

theorem natToLE_length (s : Nat) : ∀ v : Nat, (natToLE s v).length = s := by
  induction s with
  | zero => intro v; rfl
  | succ n ih => intro v; simp [natToLE, ih]

theorem beVal_natToBE (s : Nat) : ∀ v : Nat, v < 256 ^ s →
    beVal (natToBE s v) = v := by
  induction s with
  | zero =>
    intro v hv
    simp only [pow_zero, Nat.lt_one_iff] at hv
    simp [natToBE, beVal, hv]
  | succ n ih =>
    intro v hv
    have hdiv : v / 256 < 256 ^ n := by
      rw [pow_succ] at hv
      exact Nat.div_lt_of_lt_mul (by omega)
    rw [natToBE, beVal_append_singleton, ih (v / 256) hdiv]
    omega

theorem leVal_natToLE (s : Nat) : ∀ v : Nat, v < 256 ^ s →
    leVal (natToLE s v) = v := by
  induction s with
  | zero =>
    intro v hv
    simp only [pow_zero, Nat.lt_one_iff] at hv
    simp [natToLE, leVal, beVal, hv]
  | succ n ih =>
    intro v hv
    have hdiv : v / 256 < 256 ^ n := by
      rw [pow_succ] at hv
      exact Nat.div_lt_of_lt_mul (by omega)
    rw [natToLE, leVal_cons, ih (v / 256) hdiv]
    omega

theorem parseScalar_err (typeName : String) (size : Nat) (p : BytesParser)
    (h : parseable p < size) :
    parseScalar typeName size p =
      (Except.error (BytesParserError.NotEnoughBytesForTypeError typeName), p) := by
  unfold parseScalar
  rw [if_pos h]

theorem parseScalar_ok (typeName : String) (size : Nat) (p : BytesParser)
    (h : size ≤ parseable p) :
    parseScalar typeName size p =
      (Except.ok (readScalarValue size p), { p with cursor := p.cursor + size }) := by
  unfold parseScalar
  rw [if_neg (by omega)]

theorem readScalarValue_BE (size : Nat) (p : BytesParser)
    (h : p.endian = ParsingEndian.BE) :
    readScalarValue size p = beVal ((p.buffer.drop p.cursor).take size) := by
  unfold readScalarValue
  rw [h]

theorem readScalarValue_LE (size : Nat) (p : BytesParser)
    (h : p.endian = ParsingEndian.LE) :
    readScalarValue size p = leVal ((p.buffer.drop p.cursor).take size) := by
  unfold readScalarValue
  rw [h]

/-- C1: the claimed cursor invariant (`0 ≤ position() ≤ length()` and
`parseable() == length() - position()` for every reachable state) is violated
by the code: from a Reader over an empty slice, `move_backward(usize::MAX)`
returns `Ok` (the cast `usize::MAX as isize` wraps to `-1`) and leaves the
cursor at `1 > length() == 0`, after which `parseable()` wraps to
`2 ^ 64 - 1`. -/
theorem c1_cursor_invariant_violated :
    (move_backward (2 ^ 64 - 1) (fromBytes [])).1 = Except.ok () ∧
    Reachable (move_backward (2 ^ 64 - 1) (fromBytes [])).2 ∧
    position (move_backward (2 ^ 64 - 1) (fromBytes [])).2 = 1 ∧
    (move_backward (2 ^ 64 - 1) (fromBytes [])).2.length = 0 ∧
    parseable (move_backward (2 ^ 64 - 1) (fromBytes [])).2 = 2 ^ 64 - 1 := by
  refine ⟨by decide, ?_, by decide, by decide, by decide⟩
  exact Reachable.bwd (2 ^ 64 - 1) (fromBytes [])
    (Reachable.construct [] (by decide) (by decide)) (by decide)

/-- C2: every fixed-width scalar decode — with `parseable() < size` it fails
with `NotEnoughBytesForType` carrying the type's name and leaves the state
unchanged; otherwise it reads exactly `size` bytes at the cursor, reconstructs
the value under the active endianness (big-endian: first byte most
significant, i.e. weight `256 ^ (size - 1 - i)`; little-endian: first byte
least significant, i.e. weight `256 ^ i`), advances the cursor by `size` and
returns the value. -/
theorem c2_scalar_decode (typeName : String) (size : Nat) (p : BytesParser)
    (hc : p.cursor ≤ p.length) (hb : p.length = p.buffer.length)
    (hw : p.length < 2 ^ 63) :
    (p.length - p.cursor < size →
      parseScalar typeName size p =
        (Except.error (BytesParserError.NotEnoughBytesForTypeError typeName), p)) ∧
    (size ≤ p.length - p.cursor →
      parseScalar typeName size p =
        (Except.ok (readScalarValue size p), { p with cursor := p.cursor + size }) ∧
      ((p.buffer.drop p.cursor).take size).length = size ∧
      (p.endian = ParsingEndian.BE →
        readScalarValue size p =
          Finset.sum (Finset.range size)
            (fun i => ((p.buffer.drop p.cursor).take size).getD i 0 *
              256 ^ (size - 1 - i))) ∧
      (p.endian = ParsingEndian.LE →
        readScalarValue size p =
          Finset.sum (Finset.range size)
            (fun i => ((p.buffer.drop p.cursor).take size).getD i 0 * 256 ^ i))) := by
  have hpe : parseable p = p.length - p.cursor :=
    parseable_eq hc (by unfold usizeLim; omega)
  constructor
  · intro h
    exact parseScalar_err typeName size p (by omega)
  · intro h
    have hlen : ((p.buffer.drop p.cursor).take size).length = size := by
      rw [List.length_take, List.length_drop]
      omega
    refine ⟨parseScalar_ok typeName size p (by omega), hlen, ?_, ?_⟩
    · intro hbe
      rw [readScalarValue_BE size p hbe, beVal_eq_sum, hlen]
    · intro hle
      rw [readScalarValue_LE size p hle, leVal_eq_sum, hlen]

theorem c2_scalar_decode_witness :
    (parseScalar "u16" 2 (fromBytes [18, 52, 86])).1 =
      Except.ok (readScalarValue 2 (fromBytes [18, 52, 86])) ∧
    readScalarValue 2 (fromBytes [18, 52, 86]) = 4660 ∧
    (parseScalar "u16" 2 (fromBytes [18, 52, 86])).2.cursor = 2 := by
  have h := ((c2_scalar_decode "u16" 2 (fromBytes [18, 52, 86]) (by decide)
    (by decide) (by decide)).2 (by decide)).1
  refine ⟨by rw [h], by decide, ?_⟩
  rw [h]
  rfl

/-- C3: round trip — encoding any `size`-byte value under an endianness and
decoding it with a Reader configured for that endianness yields the value
back (at the bit-pattern level, which is bitwise identity for every supported
primitive type including floating point), leaving the Reader at the end. -/
theorem c3_roundtrip (typeName : String) (size v : Nat) (hs : size ≤ 16)
    (hv : v < 256 ^ size) :
    (parseScalar typeName size
      (set_endian ParsingEndian.BE (fromBytes (natToBE size v)))).1 =
      Except.ok v ∧
    is_at_end (parseScalar typeName size
      (set_endian ParsingEndian.BE (fromBytes (natToBE size v)))).2 = true ∧
    (parseScalar typeName size
      (set_endian ParsingEndian.LE (fromBytes (natToLE size v)))).1 =
      Except.ok v ∧
    is_at_end (parseScalar typeName size
      (set_endian ParsingEndian.LE (fromBytes (natToLE size v)))).2 = true := by
  have hpeBE : parseable (set_endian ParsingEndian.BE (fromBytes (natToBE size v))) =
      size := by
    rw [parseable_eq (Nat.zero_le _) (by unfold usizeLim; show (natToBE size v).length < _; rw [natToBE_length]; omega)]
    show (natToBE size v).length - 0 = size
    rw [natToBE_length]
    omega
  have hpeLE : parseable (set_endian ParsingEndian.LE (fromBytes (natToLE size v))) =
      size := by
    rw [parseable_eq (Nat.zero_le _) (by unfold usizeLim; show (natToLE size v).length < _; rw [natToLE_length]; omega)]
    show (natToLE size v).length - 0 = size
    rw [natToLE_length]
    omega
  have hBE := parseScalar_ok typeName size
    (set_endian ParsingEndian.BE (fromBytes (natToBE size v))) (by omega)
  have hLE := parseScalar_ok typeName size
    (set_endian ParsingEndian.LE (fromBytes (natToLE size v))) (by omega)
  have hvalBE : readScalarValue size
      (set_endian ParsingEndian.BE (fromBytes (natToBE size v))) = v := by
    rw [readScalarValue_BE _ _ rfl]
    show beVal ((natToBE size v).drop 0 |>.take size) = v
    rw [List.drop_zero, List.take_of_length_le (le_of_eq (natToBE_length size v)),
      beVal_natToBE size v hv]
  have hvalLE : readScalarValue size
      (set_endian ParsingEndian.LE (fromBytes (natToLE size v))) = v := by
    rw [readScalarValue_LE _ _ rfl]
    show leVal ((natToLE size v).drop 0 |>.take size) = v
    rw [List.drop_zero, List.take_of_length_le (le_of_eq (natToLE_length size v)),
      leVal_natToLE size v hv]
  refine ⟨by rw [hBE, hvalBE], ?_, by rw [hLE, hvalLE], ?_⟩
  · rw [hBE]
    show is_at_end _ = true
    simp [is_at_end, set_endian, fromBytes, natToBE_length]
  · rw [hLE]
    simp [is_at_end, set_endian, fromBytes, natToLE_length]

theorem c3_roundtrip_witness :
    (parseScalar "u16" 2 (set_endian ParsingEndian.BE (fromBytes (natToBE 2 4660)))).1 =
      Except.ok 4660 ∧
    (parseScalar "u16" 2 (set_endian ParsingEndian.LE (fromBytes (natToLE 2 4660)))).1 =
      Except.ok 4660 ∧
    natToBE 2 4660 = [18, 52] ∧ natToLE 2 4660 = [52, 18] := by
  have h := c3_roundtrip "u16" 2 4660 (by decide) (by decide)
  exact ⟨h.1, h.2.2.1, by decide, by decide⟩

/-- C4: `move_forward` and `move_at` reject the top boundary exclusively —
a target equal to `length()` always fails with `CursorOutOfBound` carrying
`(target, length, prior position)` and leaves the cursor unchanged; in
general both fail exactly when the computed target is `>= length`, and
otherwise set the cursor to the target (`move_forward`'s target being the
`usize` sum `(position + amount) % 2 ^ 64`, which equals `position + amount`
whenever that sum does not overflow). -/
theorem c4_top_boundary (p : BytesParser) (amount pos : Nat)
    (hw : p.length < 2 ^ 63) :
    (p.cursor + amount = p.length →
      move_forward amount p =
        (Except.error (BytesParserError.CursorOutOfBoundError
          ((p.length : Int)) p.length p.cursor), p)) ∧
    (pos = p.length →
      move_at pos p =
        (Except.error (BytesParserError.CursorOutOfBoundError
          ((p.length : Int)) p.length p.cursor), p)) ∧
    ((move_forward amount p).1 =
        Except.error (BytesParserError.CursorOutOfBoundError
          (toIsize ((p.cursor + amount) % usizeLim)) p.length p.cursor)
      ↔ p.length ≤ (p.cursor + amount) % usizeLim) ∧
    ((p.cursor + amount) % usizeLim < p.length →
      move_forward amount p =
        (Except.ok (), { p with cursor := (p.cursor + amount) % usizeLim })) ∧
    (p.cursor + amount < 2 ^ 64 →
      (p.cursor + amount) % usizeLim = p.cursor + amount) ∧
    ((move_at pos p).1 =
        Except.error (BytesParserError.CursorOutOfBoundError
          (toIsize pos) p.length p.cursor)
      ↔ p.length ≤ pos) ∧
    (pos < p.length → move_at pos p = (Except.ok (), { p with cursor := pos })) := by
  have hmod : ∀ n : Nat, n < 2 ^ 64 → n % usizeLim = n := by
    intro n h
    unfold usizeLim
    omega
  refine ⟨?_, ?_, ?_, ?_, fun h => hmod _ h, ?_, ?_⟩
  · intro h
    unfold move_forward
    rw [h, hmod p.length (by omega), if_pos (le_refl _), toIsize_small hw]
  · intro h
    unfold move_at
    rw [h, if_pos (le_refl _), toIsize_small hw]
  · constructor
    · intro herr
      by_contra hneg
      unfold move_forward at herr
      rw [if_neg (by omega)] at herr
      simp at herr
    · intro hge
      unfold move_forward
      rw [if_pos hge]
  · intro hlt
    unfold move_forward
    rw [if_neg (by omega)]
  · constructor
    · intro herr
      by_contra hneg
      unfold move_at at herr
      rw [if_neg (by omega)] at herr
      simp at herr
    · intro hge
      unfold move_at
      rw [if_pos hge]
  · intro hlt
    unfold move_at
    rw [if_neg (by omega)]

theorem c4_top_boundary_witness :
    move_forward 1 (fromBytes [7]) =
      (Except.error (BytesParserError.CursorOutOfBoundError 1 1 0), fromBytes [7]) ∧
    move_at 1 (fromBytes [7]) =
      (Except.error (BytesParserError.CursorOutOfBoundError 1 1 0), fromBytes [7]) := by
  have h := c4_top_boundary (fromBytes [7]) 1 1 (by decide)
  exact ⟨by simpa using h.1 (by decide), by simpa using h.2.1 (by decide)⟩

/-- C5: `move_backward` computes its target from `position - amount` in
signed (`isize`) arithmetic, fails with `CursorOutOfBound` carrying
`(target, length, prior position)` exactly when the target is negative —
leaving the cursor unchanged — and otherwise sets the cursor to the target;
for any `amount < 2 ^ 63` the signed target is exactly
`position - amount` over the integers. -/
theorem c5_move_backward_signed (p : BytesParser) (amount : Nat)
    (hc : p.cursor ≤ p.length) (hw : p.length < 2 ^ 63) :
    (wrapIsize (toIsize p.cursor - toIsize amount) < 0 →
      move_backward amount p =
        (Except.error (BytesParserError.CursorOutOfBoundError
          (wrapIsize (toIsize p.cursor - toIsize amount)) p.length p.cursor), p)) ∧
    ((∃ e, (move_backward amount p).1 = Except.error e) ↔
      wrapIsize (toIsize p.cursor - toIsize amount) < 0) ∧
    (0 ≤ wrapIsize (toIsize p.cursor - toIsize amount) →
      move_backward amount p =
        (Except.ok (),
          { p with cursor := (wrapIsize (toIsize p.cursor - toIsize amount)).toNat })) ∧
    (amount < 2 ^ 63 →
      wrapIsize (toIsize p.cursor - toIsize amount) =
        (p.cursor : Int) - (amount : Int)) := by
  refine ⟨?_, ⟨?_, ?_⟩, ?_, ?_⟩
  · intro h
    unfold move_backward
    rw [if_pos h]
  · rintro ⟨e, he⟩
    by_contra hneg
    unfold move_backward at he
    rw [if_neg (by omega)] at he
    simp at he
  · intro h
    exact ⟨_, by unfold move_backward; rw [if_pos h]⟩
  · intro h
    unfold move_backward
    rw [if_neg (by omega)]
  · intro ha
    rw [toIsize_small (by omega), toIsize_small ha,
      wrapIsize_eq_self (by omega) (by omega)]

theorem c5_move_backward_signed_witness :
    move_backward 3 ((move_forward 2 (fromBytes [7, 7, 7])).2) =
      (Except.error (BytesParserError.CursorOutOfBoundError (-1) 3 2),
        (move_forward 2 (fromBytes [7, 7, 7])).2) ∧
    move_backward 2 ((move_forward 2 (fromBytes [7, 7, 7])).2) =
      (Except.ok (), fromBytes [7, 7, 7]) := by
  have h := c5_move_backward_signed ((move_forward 2 (fromBytes [7, 7, 7])).2) 3
    (by decide) (by decide)
  have h2 := c5_move_backward_signed ((move_forward 2 (fromBytes [7, 7, 7])).2) 2
    (by decide) (by decide)
  constructor
  · have he := h.1 (by decide)
    rw [he]
    congr 1
  · have hok := h2.2.2.1 (by decide)
    rw [hok]
    congr 1

/-- C6: `parse_char_u32` first decodes a `u32`, and that step advances the
cursor by 4 bytes even when the subsequent validity check fails: whenever at
least 4 bytes are parseable the position after the call is the position
before plus 4, success or not; the call fails with `InvalidU32ForCharError`
exactly when the decoded 32-bit value is not a valid Unicode scalar value
(`>= 0x110000` or a surrogate), and on success returns that code point. -/
theorem c6_parse_char_advances (p : BytesParser) (h4 : 4 ≤ parseable p) :
    (parse_char_u32 p).2 = { p with cursor := p.cursor + 4 } ∧
    position (parse_char_u32 p).2 = position p + 4 ∧
    ((parse_char_u32 p).1 = Except.error BytesParserError.InvalidU32ForCharError ↔
      0x110000 ≤ readScalarValue 4 p ∨
        (0xD800 ≤ readScalarValue 4 p ∧ readScalarValue 4 p < 0xE000)) ∧
    (¬(0x110000 ≤ readScalarValue 4 p ∨
        (0xD800 ≤ readScalarValue 4 p ∧ readScalarValue 4 p < 0xE000)) →
      (parse_char_u32 p).1 = Except.ok (readScalarValue 4 p)) := by
  have hok := parseScalar_ok "u32" 4 p h4
  by_cases hv : 0x110000 ≤ readScalarValue 4 p ∨
      (0xD800 ≤ readScalarValue 4 p ∧ readScalarValue 4 p < 0xE000)
  · simp [parse_char_u32, parse_u32, hok, char_from_u32, hv, position]
  · simp [parse_char_u32, parse_u32, hok, char_from_u32, hv, position]

theorem c6_parse_char_advances_witness :
    (parse_char_u32 (fromBytes [0, 0, 216, 0])).1 =
      Except.error BytesParserError.InvalidU32ForCharError ∧
    position (parse_char_u32 (fromBytes [0, 0, 216, 0])).2 = 4 ∧
    (parse_char_u32 (fromBytes [0, 1, 249, 128])).1 = Except.ok 129408 := by
  have h := c6_parse_char_advances (fromBytes [0, 0, 216, 0]) (by decide)
  have h2 := c6_parse_char_advances (fromBytes [0, 1, 249, 128]) (by decide)
  refine ⟨h.2.2.1.mpr (by decide), ?_, ?_⟩
  · rw [h.2.1]
    rfl
  · rw [h2.2.2.2 (by decide)]
    decide

/-- C7: `parse_str_utf8(size)` fails with `NotEnoughBytesForString` carrying
`size` when `parseable() < size`, cursor unchanged; otherwise it takes exactly
`size` bytes at the cursor and, when they are not well-formed UTF-8, fails
with the string-decode error with the cursor not advanced; on success it
advances the cursor by `size` and returns the decoded text. -/
theorem c7_parse_str_utf8_spec (p : BytesParser) (size : Nat)
    (hc : p.cursor ≤ p.length) (hb : p.length = p.buffer.length)
    (hw : p.length < 2 ^ 63) :
    (p.length - p.cursor < size →
      parse_str_utf8 size p =
        (Except.error (BytesParserError.NotEnoughBytesForStringError size), p)) ∧
    (size ≤ p.length - p.cursor →
      ((p.buffer.drop p.cursor).take size).length = size ∧
      (utf8Valid ((p.buffer.drop p.cursor).take size) = false →
        parse_str_utf8 size p = (Except.error BytesParserError.StringParseError, p)) ∧
      (utf8Valid ((p.buffer.drop p.cursor).take size) = true →
        parse_str_utf8 size p =
          (Except.ok ((p.buffer.drop p.cursor).take size),
            { p with cursor := p.cursor + size }))) := by
  have hpe : parseable p = p.length - p.cursor :=
    parseable_eq hc (by unfold usizeLim; omega)
  constructor
  · intro h
    unfold parse_str_utf8
    rw [hpe, if_pos h]
  · intro h
    have hlen : ((p.buffer.drop p.cursor).take size).length = size := by
      rw [List.length_take, List.length_drop]
      omega
    refine ⟨hlen, ?_, ?_⟩
    · intro hval
      unfold parse_str_utf8
      rw [hpe, if_neg (by omega)]
      simp [hval]
    · intro hval
      unfold parse_str_utf8
      rw [hpe, if_neg (by omega)]
      simp [hval]

theorem c7_parse_str_utf8_spec_witness :
    parse_str_utf8 5 (fromBytes [70, 255]) =
      (Except.error (BytesParserError.NotEnoughBytesForStringError 5),
        fromBytes [70, 255]) ∧
    parse_str_utf8 2 (fromBytes [70, 255]) =
      (Except.error BytesParserError.StringParseError, fromBytes [70, 255]) ∧
    (parse_str_utf8 1 (fromBytes [70, 255])).1 = Except.ok [70] ∧
    position (parse_str_utf8 1 (fromBytes [70, 255])).2 = 1 := by
  have h := c7_parse_str_utf8_spec (fromBytes [70, 255]) 5 (by decide) (by decide)
    (by decide)
  have h2 := c7_parse_str_utf8_spec (fromBytes [70, 255]) 2 (by decide) (by decide)
    (by decide)
  have h1 := c7_parse_str_utf8_spec (fromBytes [70, 255]) 1 (by decide) (by decide)
    (by decide)
  refine ⟨h.1 (by decide), (h2.2 (by decide)).2.1 (by decide), ?_, ?_⟩
  · rw [((h1.2 (by decide)).2.2 (by decide))]
    rfl
  · rw [((h1.2 (by decide)).2.2 (by decide))]
    rfl

/-- C8: a freshly constructed Reader has position 0 (`is_at_start`), length
equal to the byte count of the view, and big-endian endianness (the default);
`set_endian`/`endian` are a pure get/set pair on the `endian` field, leaving
buffer, length and cursor untouched, and the endianness only enters scalar
decoding through `readScalarValue`. -/
theorem c8_construction_defaults (bytes : List Nat) (e : ParsingEndian)
    (p : BytesParser) (size : Nat) :
    position (fromBytes bytes) = 0 ∧
    is_at_start (fromBytes bytes) = true ∧
    (fromBytes bytes).length = bytes.length ∧
    (fromBytes bytes).endian = ParsingEndian.BE ∧
    ParsingEndian.default = ParsingEndian.BE ∧
    (set_endian e p).endian = e ∧
    set_endian p.endian p = p ∧
    (set_endian e p).buffer = p.buffer ∧
    (set_endian e p).length = p.length ∧
    (set_endian e p).cursor = p.cursor ∧
    readScalarValue size (set_endian ParsingEndian.BE p) =
      beVal ((p.buffer.drop p.cursor).take size) ∧
    readScalarValue size (set_endian ParsingEndian.LE p) =
      leVal ((p.buffer.drop p.cursor).take size) := by
  refine ⟨rfl, rfl, rfl, rfl, rfl, rfl, rfl, rfl, rfl, rfl, rfl, rfl⟩

/-- C9: when the cursor sits exactly at the end (`position() == length()`,
including a Reader over an empty buffer), `move_forward(0)` fails with
`CursorOutOfBound` even though the attempted target equals the current,
valid, cursor position — it does not succeed leaving the cursor in place. -/
theorem c9_move_forward_zero_at_end (p : BytesParser)
    (hEnd : p.cursor = p.length) (hw : p.length < 2 ^ 63) :
    move_forward 0 p =
      (Except.error (BytesParserError.CursorOutOfBoundError
        ((p.cursor : Int)) p.length p.cursor), p) := by
  have h1 : (p.cursor + 0) % usizeLim = p.cursor := by
    unfold usizeLim
    omega
  unfold move_forward
  rw [h1, if_pos (by omega), toIsize_small (by omega)]

theorem c9_move_forward_zero_at_end_witness :
    move_forward 0 (fromBytes []) =
      (Except.error (BytesParserError.CursorOutOfBoundError 0 0 0),
        fromBytes []) := by
  have h := c9_move_forward_zero_at_end (fromBytes []) (by decide) (by decide)
  simpa using h

/-- C10: with fewer than 4 parseable bytes, `parse_char_u32` fails with
`NotEnoughBytesForType` naming `u32` and leaves the state (in particular the
cursor) unchanged: the advance-on-failure exception of character decoding
applies only to the invalid-code-point branch. -/
theorem c10_parse_char_not_enough_bytes (p : BytesParser)
    (h : parseable p < 4) :
    parse_char_u32 p =
      (Except.error (BytesParserError.NotEnoughBytesForTypeError "u32"), p) := by
  have herr := parseScalar_err "u32" 4 p h
  simp [parse_char_u32, parse_u32, herr]

theorem c10_parse_char_not_enough_bytes_witness :
    parse_char_u32 (fromBytes [1, 2, 3]) =
      (Except.error (BytesParserError.NotEnoughBytesForTypeError "u32"),
        fromBytes [1, 2, 3]) :=
  c10_parse_char_not_enough_bytes (fromBytes [1, 2, 3]) (by decide)
